import Mathlib

/-!
Verification of the litecord channel-reordering engine, the channel
position endpoint, the swap applier, the gateway identify handshake and
the URL-embed processor, embedded from the repository sources:
  litecord/blueprints/guild/channels.py
  litecord/embed/messages.py
  tests/test_websocket.py
-/

set_option autoImplicit false

namespace Litecord

/-! ### gen_pairs (litecord/blueprints/guild/channels.py, lines 37 to 109)

The Python function receives list_of_changes (a list of dicts with id and
position fields, embedded as a list of pairs (id, position)), current_state
(a dict from position to id, embedded as its item list in enumeration
order), and an optional blacklist of ids (None embedded as the empty
list). -/

/-- Python list.insert for a non-negative index: place x at index i,
shifting the rest; an index past the end appends. -/
def listInsert (i : Nat) (x : Nat) (s : List Nat) : List Nat :=
  s.take i ++ x :: s.drop i

/-- Lines 83 to 85: materialize the working sequence by inserting each
value of current_state at the index given by its key, in enumeration
order of the dict. -/
def buildState (current_state : List (Nat × Nat)) : List Nat :=
  current_state.foldl (fun s pc => listInsert pc.1 pc.2 s) []

/-- Lines 87 to 89: for each blacklisted id in order, remove its first
occurrence from the working sequence when present (Python guards the
remove call with a membership test; List.erase has the same behavior). -/
def filteredState (current_state : List (Nat × Nat)) (blacklist : List Nat) :
    List Nat :=
  blacklist.foldl (fun s b => s.erase b) (buildState current_state)

/-- Lines 95 to 101: one iteration of the change loop. A change whose id
is absent from the working sequence is skipped; otherwise the first
occurrence of the id is removed and the id is reinserted at the requested
index. -/
def applyChange (s : List Nat) (c : Nat × Nat) : List Nat :=
  if c.1 ∈ s then listInsert c.2 c.1 (s.erase c.1) else s

/-- The working sequence after the whole change loop. -/
def reconciledState (list_of_changes : List (Nat × Nat))
    (current_state : List (Nat × Nat)) (blacklist : List Nat) : List Nat :=
  list_of_changes.foldl applyChange (filteredState current_state blacklist)

/-- Lines 105 to 107: diff the target sequence against the sequence saved
before the change loop, index by index, emitting (new occupant, index) at
every index whose occupant differs. -/
def diffPairs (orig target : List Nat) : List (Nat × Nat) :=
  (List.range orig.length).filterMap fun i =>
    if orig.getD i 0 ≠ target.getD i 0 then some (target.getD i 0, i) else none

/-- Lines 37 to 109: the whole gen_pairs function. -/
def gen_pairs (list_of_changes : List (Nat × Nat))
    (current_state : List (Nat × Nat)) (blacklist : List Nat) :
    List (Nat × Nat) :=
  diffPairs (filteredState current_state blacklist)
    (reconciledState list_of_changes current_state blacklist)

/-! ### Channel grouping and the channel position PATCH endpoint
(litecord/blueprints/guild/channels.py, lines 144 to 234) -/

/-- One guild channel row as the endpoint sees it: its id, whether its
type is GUILD_CATEGORY, its parent category when nested, its position. -/
structure Chan where
  id : Nat
  isCategory : Bool
  parent_id : Option Nat
  position : Nat
deriving DecidableEq, Repr

/-- The keys of the channel_tree dict: the literal c for categories, the
literal n for parentless non-categories, or a parent id. -/
inductive GroupKey where
  | cat
  | noparent
  | parentOf (id : Nat)
deriving DecidableEq, Repr

/-- Lines 175 to 185: _group_channel. -/
def _group_channel (c : Chan) : GroupKey :=
  if c.isCategory then GroupKey.cat
  else
    match c.parent_id with
    | none => GroupKey.noparent
    | some p => GroupKey.parentOf p

/-- One entry of the PATCH body j: a channel id, an optional position
field, and an optional parent_id field (none when the key is absent,
some newp when the key is present with value newp). -/
structure JEntry where
  id : Nat
  position : Option Nat
  parent : Option (Option Nat)
deriving DecidableEq, Repr

/-- Membership test of an id in the channels dict. -/
def hasId (channels : List Chan) (i : Nat) : Bool :=
  channels.any fun c => c.id == i

/-- Lines 205 to 217: one iteration of the reparenting loop. When the id
is a known channel, the parent_id key is present, and the new parent is
null or a known channel, the channel dict entry gets the new parent. -/
def applyParentUpdate (channels : List Chan) (e : JEntry) : List Chan :=
  match e.parent with
  | none => channels
  | some newp =>
    if hasId channels e.id &&
        (match newp with
         | none => true
         | some p => hasId channels p) then
      channels.map fun c =>
        if c.id == e.id then { c with parent_id := newp } else c
    else channels

/-- Lines 219 to 220: the key list of channel_tree, in first-occurrence
order over channels.values(), matching dict setdefault insertion order. -/
def treeKeys (channels : List Chan) : List GroupKey :=
  (channels.map _group_channel).foldl
    (fun acc k => if k ∈ acc then acc else acc ++ [k]) []

/-- Python dict assignment d[k] = v: an existing key keeps its place and
takes the new value, a new key goes to the end. -/
def dictInsert (d : List (Nat × Nat)) (k v : Nat) : List (Nat × Nat) :=
  if d.any (fun kv => kv.1 == k) then
    d.map fun kv => if kv.1 == k then (k, v) else kv
  else d ++ [(k, v)]

/-- A Python dict comprehension over a list of key-value pairs. -/
def dictOfList (l : List (Nat × Nat)) : List (Nat × Nat) :=
  l.foldl (fun d kv => dictInsert d kv.1 kv.2) []

/-- Line 227: the body entries kept for one group, those with a position
field whose id is one of the group channel ids, as (id, position). -/
def changeListFor (j : List JEntry) (ids : List Nat) : List (Nat × Nat) :=
  j.filterMap fun e =>
    match e.position with
    | some p => if e.id ∈ ids then some (e.id, p) else none
    | none => none

/-- Lines 223 to 231: the swap pairs one loop iteration computes for the
group with key k (gen_pairs is called without a blacklist there). -/
def pairsForGroup (j : List JEntry) (channels : List Chan) (k : GroupKey) :
    List (Nat × Nat) :=
  let chansOf := channels.filter fun c => _group_channel c == k
  gen_pairs (changeListFor j (chansOf.map Chan.id))
    (dictOfList (chansOf.map fun c => (c.position, c.id))) []

/-- Lines 222 to 231: the value of the _swap_pairs variable after the
loop over channel_tree. Each iteration overwrites it, so only the last
key survives; none when the tree is empty (in the source that leaves the
variable unbound and line 233 raises NameError). -/
def swapPairsAfterLoop (j : List JEntry) (channels : List Chan) :
    Option (List (Nat × Nat)) :=
  (treeKeys channels).foldl (fun _ k => some (pairsForGroup j channels k))
    none

/-- Lines 205 to 234: the argument lists of the _do_single_swap calls the
endpoint makes, after the reparenting loop has run: exactly one call,
with whatever _swap_pairs holds after the tree loop (no call when the
tree was empty, the source raising NameError instead). -/
def modifySwapInvocations (j : List JEntry) (channels0 : List Chan) :
    List (List (Nat × Nat)) :=
  match swapPairsAfterLoop j (j.foldl applyParentUpdate channels0) with
  | some sp => [sp]
  | none => []

/-! ### _do_single_swap (lines 151 to 172) -/

/-- One UPDATE guild_channels SET position statement: the row id and the
position value written. -/
structure PosWrite where
  channel_id : Nat
  position : Nat
deriving DecidableEq, Repr

/-- Lines 156 to 167: the transaction block sits inside the per-pair
loop, so each pair runs and commits in a transaction of its own; the
embedding records the list of transactions, each with its writes. -/
def doSingleSwapTransactions (updates : List (Nat × Nat)) :
    List (List PosWrite) :=
  updates.map fun p => [⟨p.1, p.2⟩]

/-- Database rows written if execution stops once the first k
transactions have committed. -/
def committedAfter (updates : List (Nat × Nat)) (k : Nat) : List PosWrite :=
  ((doSingleSwapTransactions updates).take k).flatten

/-- An event dispatched to a guild or channel scope. -/
inductive GatewayEvent where
  | channelUpdate (channel_id : Nat)
deriving DecidableEq, Repr

/-- Lines 154 to 167: the updated accumulator collects each pair id in
loop order. -/
def doSingleSwapUpdated (updates : List (Nat × Nat)) : List Nat :=
  updates.foldl (fun acc p => acc ++ [p.1]) []

/-- Lines 171 to 172 with lines 144 to 148: after the write loop, one
CHANNEL_UPDATE dispatch per collected id, in collection order. -/
def doSingleSwapEvents (updates : List (Nat × Nat)) : List GatewayEvent :=
  (doSingleSwapUpdated updates).map fun i => GatewayEvent.channelUpdate i

/-! ### Gateway identify handling (exercised by tests/test_websocket.py,
test_broken_identify, lines 108 to 124) -/

/-- A JSON value as far as the identify payload needs one. -/
inductive JValue where
  | str (s : String)
  | boolean (b : Bool)
  | num (n : Int)
  | nullv
deriving DecidableEq, Repr

/-- Field lookup in a JSON object given as a key-value list. -/
def lookupField (d : List (String × JValue)) (k : String) : Option JValue :=
  match d.find? (fun kv => kv.1 == k) with
  | some kv => some kv.2
  | none => none

/-- What the server does with one identify command: close the socket
with a code, or bind a user and send the READY dispatch. -/
inductive IdentifyOutcome where
  | close (code : Nat)
  | ready (user : Nat)
deriving DecidableEq, Repr

/-- Modelled from the spec: the gateway websocket identify handler is
not among the provided source files; only tests/test_websocket.py
exercises it. Per the spec, the identify payload must contain a string
authentication token; if the token field is present but not a string, or
required fields are structurally invalid, the connection is closed with
the decode error code 4002 and no READY is sent; a string token that
fails authentication closes with the authentication failure code 4004;
on success the READY dispatch for the authenticated user follows. The
token check oracle auth maps a token to its user when valid. -/
def handleIdentify (auth : String → Option Nat)
    (d : List (String × JValue)) : IdentifyOutcome :=
  match lookupField d "token" with
  | some (JValue.str t) =>
    match auth t with
    | some u => IdentifyOutcome.ready u
    | none => IdentifyOutcome.close 4004
  | some _ => IdentifyOutcome.close 4002
  | none => IdentifyOutcome.close 4002

/-! ### URL embed processing (litecord/embed/messages.py) -/

/-- The fields of a message payload that process_url_embed and
msg_update_embeds read; embed documents are abstracted to tokens. -/
structure MessagePayload where
  id : Nat
  channel_id : Nat
  guild_id : Option Nat
  flags : Option Nat
  embeds : List Nat
  content : String
deriving DecidableEq, Repr

/-- An observable side effect of the embed processor: the UPDATE of the
messages row, or the MESSAGE_UPDATE dispatch to the channel. -/
inductive EmbedEffect where
  | dbWriteEmbeds (message_id : Nat) (embeds : List Nat)
  | dispatchMessageUpdate (channel_id : Nat) (message_id : Nat)
      (embeds : List Nat)
deriving DecidableEq, Repr

/-- Lines 148 to 179: msg_update_embeds writes the new embed list to the
messages row, then dispatches one MESSAGE_UPDATE to the channel. -/
def msg_update_embeds (payload : MessagePayload) (new_embeds : List Nat) :
    List EmbedEffect :=
  [EmbedEffect.dbWriteEmbeds payload.id new_embeds,
   EmbedEffect.dispatchMessageUpdate payload.channel_id payload.id
     new_embeds]

/-- Lines 223 to 283: process_url_embed, returning the list of effects
it performs. The URL regex over the message content is embedded as the
oracle urlsOf, and the four per-URL fetch branches as the oracle fetch:
some l means the branch taken for that URL assigned the list l to the
embeds variable (the mediaproxy branch returning None or an empty list
is some []), and none means a media, youtube or soundcloud fetch
returned None, in which case the embeds variable keeps its previous
value, as in the source. When the payload already has embeds the
function returns at line 235 with no effect; when no embeds were
collected it returns at line 279 with no effect. -/
def process_url_embed (urlsOf : String → List String)
    (fetch : String → Option (List Nat)) (payload : MessagePayload) :
    List EmbedEffect :=
  if payload.embeds ≠ [] then []
  else
    let urls := (urlsOf payload.content).take 5
    let st := urls.foldl
      (fun (st : List Nat × List Nat) u =>
        let embeds :=
          match fetch u with
          | some l => l
          | none => st.1
        (embeds, if embeds = [] then st.2 else st.2 ++ embeds))
      (payload.embeds, [])
    if st.2 = [] then [] else msg_update_embeds payload st.2

/-! ### Helper lemmas -/

lemma length_listInsert (i x : Nat) (s : List Nat) :
    (listInsert i x s).length = s.length + 1 := by
  unfold listInsert
  simp only [List.length_append, List.length_take, List.length_cons,
    List.length_drop]
  omega

lemma mem_listInsert {y : Nat} (x i : Nat) (s : List Nat) :
    y ∈ listInsert i x s ↔ y = x ∨ y ∈ s := by
  unfold listInsert
  constructor
  · intro h
    rcases List.mem_append.mp h with h1 | h2
    · exact Or.inr (List.take_subset i s h1)
    · rcases List.mem_cons.mp h2 with h3 | h4
      · exact Or.inl h3
      · exact Or.inr (List.drop_subset i s h4)
  · intro h
    rcases h with h | h
    · exact List.mem_append.mpr (Or.inr (List.mem_cons.mpr (Or.inl h)))
    · rw [← List.take_append_drop i s] at h
      rcases List.mem_append.mp h with h1 | h2
      · exact List.mem_append.mpr (Or.inl h1)
      · exact List.mem_append.mpr (Or.inr (List.mem_cons.mpr (Or.inr h2)))

lemma length_applyChange (s : List Nat) (c : Nat × Nat) :
    (applyChange s c).length = s.length := by
  unfold applyChange
  by_cases h : c.1 ∈ s
  · rw [if_pos h, length_listInsert, List.length_erase_of_mem h]
    have hpos : 0 < s.length := List.length_pos.mpr (List.ne_nil_of_mem h)
    omega
  · rw [if_neg h]

lemma mem_applyChange {y : Nat} (s : List Nat) (c : Nat × Nat) :
    y ∈ applyChange s c ↔ y ∈ s := by
  unfold applyChange
  by_cases h : c.1 ∈ s
  · rw [if_pos h, mem_listInsert]
    constructor
    · intro hy
      rcases hy with hy | hy
      · exact hy ▸ h
      · exact List.mem_of_mem_erase hy
    · intro hy
      by_cases hyc : y = c.1
      · exact Or.inl hyc
      · exact Or.inr ((List.mem_erase_of_ne hyc).mpr hy)
  · rw [if_neg h]

lemma mem_foldl_applyChange {y : Nat} :
    ∀ (changes : List (Nat × Nat)) (s : List Nat),
      y ∈ changes.foldl applyChange s ↔ y ∈ s
  | [], _ => Iff.rfl
  | c :: t, s => by
    rw [List.foldl_cons, mem_foldl_applyChange t (applyChange s c),
      mem_applyChange]

lemma length_foldl_applyChange :
    ∀ (changes : List (Nat × Nat)) (s : List Nat),
      (changes.foldl applyChange s).length = s.length
  | [], _ => rfl
  | c :: t, s => by
    rw [List.foldl_cons, length_foldl_applyChange t (applyChange s c),
      length_applyChange]

lemma mem_diffPairs {t i : Nat} (orig target : List Nat) :
    (t, i) ∈ diffPairs orig target ↔
      i < orig.length ∧ orig.getD i 0 ≠ target.getD i 0 ∧
        t = target.getD i 0 := by
  unfold diffPairs
  rw [List.mem_filterMap]
  constructor
  · rintro ⟨j, hj, hfj⟩
    rw [List.mem_range] at hj
    by_cases h : orig.getD j 0 ≠ target.getD j 0
    · rw [if_pos h] at hfj
      have h2 := Option.some.inj hfj
      have hi : j = i := congrArg Prod.snd h2
      have ht : target.getD j 0 = t := congrArg Prod.fst h2
      subst hi
      exact ⟨hj, h, ht.symm⟩
    · rw [if_neg h] at hfj
      exact Option.noConfusion hfj
  · rintro ⟨hi, hne, ht⟩
    refine ⟨i, List.mem_range.mpr hi, ?_⟩
    rw [if_pos hne, ht]

lemma diffPairs_self (l : List Nat) : diffPairs l l = [] := by
  unfold diffPairs
  apply List.filterMap_eq_nil_iff.mpr
  intro i _
  rw [if_neg (by simp)]

lemma listInsert_erase_of_get? :
    ∀ (l : List Nat) (p : Nat) (x : Nat), l.Nodup → l.get? p = some x →
      listInsert p x (l.erase x) = l
  | [], _, _, _, h => Option.noConfusion h
  | a :: t, 0, x, _, h => by
    have hax : a = x := Option.some.inj h
    subst hax
    rw [List.erase_cons_head]
    unfold listInsert
    simp
  | a :: t, p + 1, x, hnd, h => by
    have hpt : t.get? p = some x := h
    have hxt : x ∈ t := List.get?_mem hpt
    have hand := List.nodup_cons.mp hnd
    have hax : ¬(a == x) := by
      simp only [beq_iff_eq]
      intro he
      exact hand.1 (he ▸ hxt)
    rw [List.erase_cons_tail hax]
    have hrec := listInsert_erase_of_get? t p x hand.2 hpt
    unfold listInsert at hrec ⊢
    rw [List.take_succ_cons, List.drop_succ_cons, List.cons_append, hrec]

lemma foldl_applyChange_satisfied :
    ∀ (changes : List (Nat × Nat)) (l : List Nat), l.Nodup →
      (∀ c ∈ changes, c.1 ∈ l → l.get? c.2 = some c.1) →
      changes.foldl applyChange l = l
  | [], _, _, _ => rfl
  | c :: t, l, hnd, hsat => by
    have hstep : applyChange l c = l := by
      unfold applyChange
      by_cases h : c.1 ∈ l
      · rw [if_pos h]
        exact listInsert_erase_of_get? l c.2 c.1 hnd
          (hsat c (List.mem_cons_self c t) h)
      · rw [if_neg h]
    rw [List.foldl_cons, hstep]
    exact foldl_applyChange_satisfied t l hnd
      (fun c' hc' => hsat c' (List.mem_cons_of_mem c hc'))

lemma foldl_erase_sublist :
    ∀ (bl : List Nat) (l : List Nat),
      List.Sublist (bl.foldl (fun s b => s.erase b) l) l
  | [], l => List.Sublist.refl l
  | b :: t, l => by
    rw [List.foldl_cons]
    exact (foldl_erase_sublist t (l.erase b)).trans (List.erase_sublist b l)

lemma not_mem_foldl_erase {b : Nat} :
    ∀ (bl : List Nat) (l : List Nat), l.Nodup → b ∈ bl →
      b ∉ bl.foldl (fun s b => s.erase b) l
  | [], _, _, hb => absurd hb (List.not_mem_nil b)
  | a :: t, l, hnd, hb => by
    rw [List.foldl_cons]
    rcases List.mem_cons.mp hb with hba | hbt
    · subst hba
      intro hmem
      have hsub := (foldl_erase_sublist t (l.erase b)).subset hmem
      exact ((List.Nodup.mem_erase_iff hnd).mp hsub).1 rfl
    · exact not_mem_foldl_erase t (l.erase a) (hnd.erase a) hbt

lemma foldl_overwrite {α β : Type} (g : α → β) :
    ∀ (l : List α) (init : Option β) (h : l ≠ []),
      l.foldl (fun _ k => some (g k)) init = some (g (l.getLast h))
  | [], _, h => absurd rfl h
  | [_], _, _ => rfl
  | a :: b :: t, init, _ => by
    rw [List.foldl_cons,
      foldl_overwrite g (b :: t) (some (g a)) (List.cons_ne_nil b t),
      List.getLast_cons (List.cons_ne_nil b t)]

lemma buildState_enumFrom :
    ∀ (ids : List Nat) (s : List Nat),
      (List.enumFrom s.length ids).foldl
        (fun st pc => listInsert pc.1 pc.2 st) s = s ++ ids
  | [], s => by simp
  | a :: t, s => by
    rw [show List.enumFrom s.length (a :: t) =
        (s.length, a) :: List.enumFrom (s.length + 1) t from rfl]
    rw [List.foldl_cons]
    have hins : listInsert s.length a s = s ++ [a] := by
      simp [listInsert]
    rw [hins]
    have hlen : (s ++ [a]).length = s.length + 1 := by simp
    have hrec := buildState_enumFrom t (s ++ [a])
    rw [hlen] at hrec
    rw [hrec, List.append_assoc]
    rfl

lemma foldl_concat_fst :
    ∀ (l : List (Nat × Nat)) (acc : List Nat),
      l.foldl (fun a p => a ++ [p.1]) acc = acc ++ l.map Prod.fst
  | [], acc => by simp
  | p :: t, acc => by
    rw [List.foldl_cons, foldl_concat_fst t (acc ++ [p.1]), List.map_cons,
      List.append_assoc]
    rfl

/-! ### Claim theorems -/

/-- C1: on the concrete state mapping positions 0, 1, 2 to ids 10, 20,
30 (A, B, C) with the single change moving 10 to position 2 and no
blacklist, gen_pairs returns exactly the pairs realizing the final
ordering [20, 30, 10]; and on every input, gen_pairs emits a pair
(new occupant, index) exactly at the indices where the reconciled
sequence differs from the blacklist-filtered original sequence, and no
pair at any index whose occupant is unchanged. -/
theorem gen_pairs_diff_characterization :
    gen_pairs [(10, 2)] [(0, 10), (1, 20), (2, 30)] [] =
        [(20, 0), (30, 1), (10, 2)] ∧
    ∀ (list_of_changes current_state : List (Nat × Nat))
      (blacklist : List Nat) (t i : Nat),
      (t, i) ∈ gen_pairs list_of_changes current_state blacklist ↔
        i < (filteredState current_state blacklist).length ∧
        (filteredState current_state blacklist).getD i 0 ≠
          (reconciledState list_of_changes current_state blacklist).getD
            i 0 ∧
        t = (reconciledState list_of_changes current_state
          blacklist).getD i 0 :=
  ⟨by decide, fun list_of_changes current_state blacklist _ _ =>
    mem_diffPairs (filteredState current_state blacklist)
      (reconciledState list_of_changes current_state blacklist)⟩

/-- C3 counterexample: in the degenerate state mapping positions 0, 1, 2
to ids 5, 2, 5, the single requested change (id 5 to position 2) is
already satisfied (index 2 of the working sequence [5, 2, 5] holds 5),
yet gen_pairs is nonempty: remove takes the first occurrence of 5, so
the reconciled sequence becomes [2, 5, 5]. -/
theorem gen_pairs_satisfied_duplicate_counterexample :
    (filteredState [(0, 5), (1, 2), (2, 5)] []).get? 2 = some 5 ∧
    gen_pairs [(5, 2)] [(0, 5), (1, 2), (2, 5)] [] = [(2, 0), (5, 1)] := by
  decide

/-- C3 (amended): for every current_state and blacklist whose working
sequence is duplicate free, and every already satisfied list_of_changes
(each requested id that is present already sits at its requested index),
the reconciled sequence equals the original sequence, gen_pairs returns
the empty pair list, and the swap applier consequently opens no
transaction, performs no position write and dispatches no event. -/
theorem gen_pairs_satisfied_empty
    (list_of_changes current_state : List (Nat × Nat))
    (blacklist : List Nat)
    (hnd : (filteredState current_state blacklist).Nodup)
    (hsat : ∀ c ∈ list_of_changes,
        c.1 ∈ filteredState current_state blacklist →
          (filteredState current_state blacklist).get? c.2 = some c.1) :
    reconciledState list_of_changes current_state blacklist =
        filteredState current_state blacklist ∧
    gen_pairs list_of_changes current_state blacklist = [] ∧
    doSingleSwapTransactions
        (gen_pairs list_of_changes current_state blacklist) = [] ∧
    doSingleSwapEvents
        (gen_pairs list_of_changes current_state blacklist) = [] := by
  have hrec : reconciledState list_of_changes current_state blacklist =
      filteredState current_state blacklist :=
    foldl_applyChange_satisfied list_of_changes
      (filteredState current_state blacklist) hnd hsat
  have hmain : gen_pairs list_of_changes current_state blacklist = [] := by
    unfold gen_pairs
    rw [hrec, diffPairs_self]
  exact ⟨hrec, hmain, by rw [hmain]; rfl, by rw [hmain]; rfl⟩

/-- Witness for gen_pairs_satisfied_empty at the duplicate-free state
mapping 0 to 1 and 1 to 2 with the satisfied changes [(1, 0), (2, 1)]. -/
theorem gen_pairs_satisfied_empty_witness :
    (filteredState [(0, 1), (1, 2)] []).Nodup ∧
    gen_pairs [(1, 0), (2, 1)] [(0, 1), (1, 2)] [] = [] :=
  ⟨by decide,
    (gen_pairs_satisfied_empty [(1, 0), (2, 1)] [(0, 1), (1, 2)] []
      (by decide) (by decide)).2.1⟩

/-- C4 counterexample: the dict mapping positions 0, 1, 2 bijectively to
ids 10, 20, 30, enumerated in descending key order, materializes as
[10, 30, 20]: index 1 holds 30 rather than current_state[1] = 20, so the
working sequence does depend on the enumeration order of the entries. -/
theorem buildState_enumeration_order_counterexample :
    buildState [(2, 30), (1, 20), (0, 10)] = [10, 30, 20] ∧
    (buildState [(2, 30), (1, 20), (0, 10)]).getD 1 0 ≠ 20 := by decide

/-- C4 (amended): when the dict entries are enumerated in increasing
position order (position p carrying the id ids[p]), the materialized
working sequence equals ids, holding at each index p exactly the id of
position p; for other enumeration orders this can fail. -/
theorem buildState_position_indexed (ids : List Nat) :
    buildState ids.enum = ids := by
  have h := buildState_enumFrom ids []
  simp only [List.length_nil, List.nil_append] at h
  exact h

/-- C5 counterexample: with the degenerate state mapping positions 0, 1,
2 to ids 5, 5, 7 and blacklist [5], only the first occurrence of 5 is
removed from the working sequence, and the emitted pair (5, 1)
repositions the blacklisted id 5. -/
theorem gen_pairs_blacklist_counterexample :
    gen_pairs [(7, 0)] [(0, 5), (1, 5), (2, 7)] [5] = [(7, 0), (5, 1)] ∧
    (5, 1) ∈ gen_pairs [(7, 0)] [(0, 5), (1, 5), (2, 7)] [5] ∧
    5 ∈ filteredState [(0, 5), (1, 5), (2, 7)] [5] := by decide

/-- C5 (amended): for every blacklist and every input whose materialized
working sequence is duplicate free, gen_pairs removes the blacklisted
ids from the working sequence before processing any change, and no pair
in its result has a blacklisted id as its new occupant. -/
theorem gen_pairs_blacklist_excluded
    (list_of_changes current_state : List (Nat × Nat))
    (blacklist : List Nat)
    (hnd : (buildState current_state).Nodup) :
    (∀ b ∈ blacklist, b ∉ filteredState current_state blacklist) ∧
    (∀ t i, (t, i) ∈ gen_pairs list_of_changes current_state blacklist →
        t ∉ blacklist) := by
  have hfs : ∀ b ∈ blacklist, b ∉ filteredState current_state blacklist :=
    fun b hb =>
      not_mem_foldl_erase blacklist (buildState current_state) hnd hb
  refine ⟨hfs, ?_⟩
  intro t i hmem hbl
  unfold gen_pairs at hmem
  rw [mem_diffPairs] at hmem
  obtain ⟨hi, _, ht⟩ := hmem
  have hlen : (reconciledState list_of_changes current_state
      blacklist).length = (filteredState current_state blacklist).length :=
    length_foldl_applyChange list_of_changes
      (filteredState current_state blacklist)
  have hirec : i < (reconciledState list_of_changes current_state
      blacklist).length := by rw [hlen]; exact hi
  have htm : t ∈ reconciledState list_of_changes current_state blacklist := by
    rw [ht, List.getD_eq_getElem
      (reconciledState list_of_changes current_state blacklist) 0 hirec]
    exact List.getElem_mem hirec
  have htf : t ∈ filteredState current_state blacklist :=
    (mem_foldl_applyChange list_of_changes
      (filteredState current_state blacklist)).mp htm
  exact hfs t hbl htf

/-- Witness for gen_pairs_blacklist_excluded at the duplicate-free state
mapping 0, 1, 2 to 1, 2, 3 with blacklist [2] and the change moving 3
to position 0: the blacklisted id 2 is gone from the filtered sequence,
and the emitted pair (3, 0) does not carry a blacklisted occupant. -/
theorem gen_pairs_blacklist_excluded_witness :
    (buildState [(0, 1), (1, 2), (2, 3)]).Nodup ∧
    2 ∉ filteredState [(0, 1), (1, 2), (2, 3)] [2] ∧
    (3 : Nat) ∉ [2] :=
  ⟨by decide,
    (gen_pairs_blacklist_excluded [(3, 0)] [(0, 1), (1, 2), (2, 3)] [2]
      (by decide)).1 2 (by decide),
    (gen_pairs_blacklist_excluded [(3, 0)] [(0, 1), (1, 2), (2, 3)] [2]
      (by decide)).2 3 0 (by decide)⟩

/-- C6: a change entry whose id is absent from the working sequence
(blacklisted or belonging to another group) is skipped silently: the
result is total (no error value), and deleting the entry from the change
list leaves the generated pairs for the remaining changes unchanged. -/
theorem gen_pairs_ignores_unknown_ids
    (pre post : List (Nat × Nat)) (c : Nat × Nat)
    (current_state : List (Nat × Nat)) (blacklist : List Nat)
    (h : c.1 ∉ filteredState current_state blacklist) :
    gen_pairs (pre ++ c :: post) current_state blacklist =
      gen_pairs (pre ++ post) current_state blacklist := by
  have hmid : c.1 ∉ pre.foldl applyChange
      (filteredState current_state blacklist) :=
    fun hm => h ((mem_foldl_applyChange pre
      (filteredState current_state blacklist)).mp hm)
  have hskip : applyChange
      (pre.foldl applyChange (filteredState current_state blacklist)) c =
      pre.foldl applyChange (filteredState current_state blacklist) := by
    rw [applyChange, if_neg hmid]
  have hrec : reconciledState (pre ++ c :: post) current_state blacklist =
      reconciledState (pre ++ post) current_state blacklist := by
    unfold reconciledState
    rw [List.foldl_append, List.foldl_append, List.foldl_cons, hskip]
  unfold gen_pairs
  rw [hrec]

/-- Witness for gen_pairs_ignores_unknown_ids: id 9 is not in the
working sequence [1, 2], and dropping the entry (9, 0) from the change
list leaves the result unchanged. -/
theorem gen_pairs_ignores_unknown_ids_witness :
    (9 : Nat) ∉ filteredState [(0, 1), (1, 2)] [] ∧
    gen_pairs [(9, 0), (2, 0)] [(0, 1), (1, 2)] [] =
      gen_pairs [(2, 0)] [(0, 1), (1, 2)] [] :=
  ⟨by decide,
    gen_pairs_ignores_unknown_ids [] [(2, 0)] (9, 0) [(0, 1), (1, 2)] []
      (by decide)⟩

/-- C2: when the reordering request leaves the channel tree with at
least two groups, the endpoint still calls _do_single_swap exactly once,
and the argument is the swap-pair list computed for the last-iterated
group only: the loop overwrites _swap_pairs on every iteration, so the
other groups' computed pairs are discarded and never written. -/
theorem modify_channel_pos_last_group_only
    (j : List JEntry) (channels0 : List Chan)
    (h : treeKeys (j.foldl applyParentUpdate channels0) ≠ [])
    (_h2 : 2 ≤ (treeKeys (j.foldl applyParentUpdate channels0)).length) :
    modifySwapInvocations j channels0 =
      [pairsForGroup j (j.foldl applyParentUpdate channels0)
        ((treeKeys (j.foldl applyParentUpdate channels0)).getLast h)] := by
  unfold modifySwapInvocations swapPairsAfterLoop
  rw [foldl_overwrite
    (pairsForGroup j (j.foldl applyParentUpdate channels0))
    (treeKeys (j.foldl applyParentUpdate channels0)) none h]

/-- Witness for modify_channel_pos_last_group_only: one top-level text
channel (id 1) and one category (id 2) give the two groups n and c; the
single invocation carries the pairs of the last group (the category
group, which the request does not touch, hence the empty pair list),
while the requested move of channel 1 in the first group is dropped. -/
theorem modify_channel_pos_last_group_only_witness :
    treeKeys ([⟨1, some 1, none⟩].foldl applyParentUpdate
      [⟨1, false, none, 0⟩, ⟨3, false, none, 1⟩, ⟨2, true, none, 0⟩]) ≠ [] ∧
    2 ≤ (treeKeys ([⟨1, some 1, none⟩].foldl applyParentUpdate
      [⟨1, false, none, 0⟩, ⟨3, false, none, 1⟩, ⟨2, true, none, 0⟩])).length ∧
    modifySwapInvocations [⟨1, some 1, none⟩]
      [⟨1, false, none, 0⟩, ⟨3, false, none, 1⟩, ⟨2, true, none, 0⟩] =
      [[]] := by
  refine ⟨by decide, by decide, ?_⟩
  have h := modify_channel_pos_last_group_only [⟨1, some 1, none⟩]
    [⟨1, false, none, 0⟩, ⟨3, false, none, 1⟩, ⟨2, true, none, 0⟩]
    (by decide) (by decide)
  rw [h]
  decide

/-- C7: evaluation of the swap applier transaction structure at the
failing input [(10, 0), (20, 1)]: the transaction block is inside the
per-pair loop, so the batch is split into two independently committed
transactions, and stopping after the first leaves exactly the first
differing position written, a partial state observable after a crash,
contrary to the single-transaction all-or-none requirement. -/
theorem doSingleSwap_per_pair_transactions :
    doSingleSwapTransactions [(10, 0), (20, 1)] =
        [[⟨10, 0⟩], [⟨20, 1⟩]] ∧
    (doSingleSwapTransactions [(10, 0), (20, 1)]).length = 2 ∧
    committedAfter [(10, 0), (20, 1)] 1 = [⟨10, 0⟩] ∧
    committedAfter [(10, 0), (20, 1)] 1 ≠ [] ∧
    committedAfter [(10, 0), (20, 1)] 1 ≠
      committedAfter [(10, 0), (20, 1)] 2 := by decide

/-- C8: _do_single_swap dispatches exactly one CHANNEL_UPDATE per
applied swap pair, in the order in which the pairs appear in the
updates list. -/
theorem doSingleSwap_events_one_per_pair_in_order
    (updates : List (Nat × Nat)) :
    doSingleSwapEvents updates =
      updates.map fun p => GatewayEvent.channelUpdate p.1 := by
  unfold doSingleSwapEvents doSingleSwapUpdated
  rw [foldl_concat_fst updates []]
  simp [List.map_map]

/-- C9: after the handshake, an identify payload whose token field is
present but not a string makes the server close the connection with
code 4002, whatever the token check would say, and no READY dispatch is
produced. -/
theorem identify_nonstring_token_closes_4002
    (auth : String → Option Nat) (d : List (String × JValue)) (v : JValue)
    (hfind : lookupField d "token" = some v)
    (hnonstr : ∀ s, v ≠ JValue.str s) :
    handleIdentify auth d = IdentifyOutcome.close 4002 ∧
    ∀ u, handleIdentify auth d ≠ IdentifyOutcome.ready u := by
  have h1 : handleIdentify auth d = IdentifyOutcome.close 4002 := by
    unfold handleIdentify
    rw [hfind]
    cases v with
    | str s => exact absurd rfl (hnonstr s)
    | boolean b => rfl
    | num n => rfl
    | nullv => rfl
  refine ⟨h1, fun u hu => ?_⟩
  rw [h1] at hu
  cases hu

/-- Witness for identify_nonstring_token_closes_4002 at the payload of
test_broken_identify, token set to the boolean true, with a token check
that would accept any string: the connection still closes with 4002. -/
theorem identify_nonstring_token_witness :
    lookupField [("token", JValue.boolean true)] "token" =
        some (JValue.boolean true) ∧
    handleIdentify (fun _ => some 1) [("token", JValue.boolean true)] =
        IdentifyOutcome.close 4002 :=
  ⟨rfl,
    (identify_nonstring_token_closes_4002 (fun _ => some 1)
      [("token", JValue.boolean true)] (JValue.boolean true) rfl
      (fun _ h => JValue.noConfusion h)).1⟩

/-- C10: for every message payload whose embeds list is already
nonempty, process_url_embed performs no effect at all: no messages row
update and no MESSAGE_UPDATE dispatch, whatever the URL extraction and
the fetches would return. -/
theorem process_url_embed_noop_when_embeds_present
    (urlsOf : String → List String) (fetch : String → Option (List Nat))
    (payload : MessagePayload) (h : payload.embeds ≠ []) :
    process_url_embed urlsOf fetch payload = [] := by
  unfold process_url_embed
  rw [if_pos h]

/-- Witness for process_url_embed_noop_when_embeds_present: a payload
that already carries the embed 5 and whose content holds a fetchable
URL produces no effect. -/
theorem process_url_embed_noop_witness :
    (MessagePayload.mk 1 2 none none [5]
        "https://a.example/x.png").embeds ≠ [] ∧
    process_url_embed (fun _ => ["https://a.example/x.png"])
      (fun _ => some [9])
      (MessagePayload.mk 1 2 none none [5] "https://a.example/x.png") =
      [] :=
  ⟨by decide,
    process_url_embed_noop_when_embeds_present
      (fun _ => ["https://a.example/x.png"]) (fun _ => some [9])
      (MessagePayload.mk 1 2 none none [5] "https://a.example/x.png")
      (by decide)⟩

end Litecord
